import Mathlib

/-!
Shallow embedding of the Organization Lifecycle Manager
(`src/app/routes/orgs.py`) and verification of its specification.

Python strings are modelled as lists of Unicode codepoints (`List Nat`);
`str.strip` / `str.lower` are modelled on the ASCII range, which covers
every name the routes manipulate.  Mongo collections are modelled as Lean
lists kept in insertion order, with `find_one` / `update_one` /
`delete_one` acting on the first matching document, and `insert_one`
appending a document carrying a fresh identifier.  Each handler is a pure
function threading an explicit `DB` state; `HTTPException` aborts are
`Except.error` values returned together with the state as mutated so far.
A `log` field records every write-effect so that ordering claims are
statable.
-/

/-- A Python string: its list of Unicode codepoints. -/
abbrev PyStr := List Nat

/-- Codepoints of a Lean string literal, for writing concrete names. -/
def pyOfString (s : String) : PyStr := s.data.map Char.toNat

/-- Whitespace codepoints removed by Python `str.strip` (ASCII range). -/
def isSpace (n : Nat) : Bool :=
  n == 9 || n == 10 || n == 11 || n == 12 || n == 13 || n == 32

/-- Python `str.lower` on one codepoint (ASCII range). -/
def lowerChar (n : Nat) : Nat := if 65 ≤ n ∧ n ≤ 90 then n + 32 else n

/-- Python `str.lower`. -/
def pyLower (s : PyStr) : PyStr := s.map lowerChar

/-- Python `str.strip`: remove leading and trailing whitespace. -/
def pyStrip (s : PyStr) : PyStr := List.rdropWhile isSpace (s.dropWhile isSpace)

/-- The normalization every route applies to a name:
`payload.organization_name.strip().lower()`. -/
def pyNorm (s : PyStr) : PyStr := pyLower (pyStrip s)

/-! The data model: documents, collections, and the database state. -/

/-- A document in the `admins` collection (`admin_doc` in `create_org`). -/
structure AdminDoc where
  _id : Nat
  email : PyStr
  password : PyStr
  role : PyStr
  organization : PyStr
deriving DecidableEq, Repr

/-- A document in the `organizations` collection (`org_doc` in `create_org`). -/
structure OrgDoc where
  _id : Nat
  organization_name : PyStr
  collection_name : PyStr
  admin_id : Nat
  created_at : Nat
deriving DecidableEq, Repr

/-- One write-effect against the backing store, recorded for ordering claims. -/
inductive Event where
  | createColl (name : PyStr)
  | dropColl (name : PyStr)
  | renameSyncColl (oldName newName : PyStr)
  | insertAdminEv (id : Nat)
  | updateAdminEv (id : Nat)
  | deleteAdminEv (id : Nat)
  | insertOrgEv (name : PyStr)
  | updateOrgEv (id : Nat)
  | deleteOrgEv (name : PyStr)
deriving DecidableEq, Repr

/-- The backing store: the two fixed collections in insertion order, the
dynamic collection namespace (present collection names), a fresh-`ObjectId`
counter, the clock, and the write log. -/
structure DB where
  organizations : List OrgDoc
  admins : List AdminDoc
  collections : List PyStr
  nextId : Nat
  now : Nat
  log : List Event
deriving DecidableEq, Repr

/-- Request body of POST /org/create (`OrgCreate` model: all fields required). -/
structure OrgCreate where
  organization_name : PyStr
  email : PyStr
  password : PyStr
deriving DecidableEq, Repr

/-- Modelled from the spec: request body of PUT /org/update (`OrgUpdate` in
`app/models.py`, not under `src/`); the spec's interface table makes
`organization_name`, `email` and `password` all optional. -/
structure OrgUpdate where
  organization_name : Option PyStr
  email : Option PyStr
  password : Option PyStr
deriving DecidableEq, Repr

/-- Modelled from the spec: the Auth collaborator's result for an admin token
(`get_current_admin` in `app/auth.py`, not under `src/`): the caller's
`admin_id` and owning organization `org_id`. -/
structure CurrentAdmin where
  admin_id : Nat
  org_id : PyStr
deriving DecidableEq, Repr

/-- Response body of POST /org/create (`OrgOut`); the `admin_id` string
conversion is modelled away (identifiers stay `Nat`). -/
structure OrgOut where
  organization_name : PyStr
  collection_name : PyStr
  admin_id : Nat
deriving DecidableEq, Repr

/-- A FastAPI `HTTPException`: status code plus detail message. -/
structure HTTPException where
  status_code : Nat
  detail : String
deriving DecidableEq, Repr

/-! Mongo primitives, modelled with first-match semantics in insertion
order, and the collaborators from `app/db.py` / `app/utils.py` (not under
`src/`), modelled from the spec. -/

/-- Mongo `update_one`: rewrite the first document matching the filter. -/
def updateFirst (p : α → Bool) (f : α → α) : List α → List α
  | [] => []
  | a :: l => if p a then f a :: l else a :: updateFirst p f l

/-- Mongo `delete_one`: remove the first document matching the filter. -/
def deleteFirst (p : α → Bool) : List α → List α
  | [] => []
  | a :: l => if p a then l else a :: deleteFirst p l

/-- Mongo `find_one` on `organizations` with filter `{"organization_name": name}`. -/
def findOrg (db : DB) (name : PyStr) : Option OrgDoc :=
  db.organizations.find? (fun o => o.organization_name == name)

/-- Mongo `find_one` on `admins` with filter `{"_id": id}`. -/
def findAdmin (db : DB) (id : Nat) : Option AdminDoc :=
  db.admins.find? (fun a => a._id == id)

/-- Modelled from the spec: the Credential Store's `hash_password`
(`app/utils.py`, not under `src/`) returns an opaque, irreversible hash;
modelled as tagging with a marker codepoint, so a hash is never equal to
any plaintext of the same length and `hash_password p ≠ p`. -/
def hash_password (p : PyStr) : PyStr := 36 :: p

/-- Modelled from the spec: `create_org_collection` (`app/db.py`, not under
`src/`) provisions the dynamic collection named `"org_" + name`. -/
def create_org_collection (name : PyStr) (db : DB) : DB :=
  { db with collections := db.collections ++ [pyOfString "org_" ++ name],
            log := db.log ++ [.createColl name] }

/-- Modelled from the spec: `drop_org_collection` (`app/db.py`, not under
`src/`) drops the dynamic collection named `"org_" + name`. -/
def drop_org_collection (name : PyStr) (db : DB) : DB :=
  { db with collections := db.collections.filter (fun c => c ≠ pyOfString "org_" ++ name),
            log := db.log ++ [.dropColl name] }

/-- Modelled from the spec: `rename_and_sync_collection` (`app/db.py`, not
under `src/`) copies the tenant data under the new derived collection name;
per the spec's open question the old collection is not dropped. -/
def rename_and_sync_collection (oldName newName : PyStr) (db : DB) : DB :=
  { db with collections := db.collections ++ [pyOfString "org_" ++ newName],
            log := db.log ++ [.renameSyncColl oldName newName] }

/-- Mongo `insert_one` on `admins`: append the document with a fresh id and
return `inserted_id`. -/
def admins_insert_one (email password role organization : PyStr) (db : DB) :
    Nat × DB :=
  (db.nextId,
   { db with admins := db.admins ++ [⟨db.nextId, email, password, role, organization⟩],
             nextId := db.nextId + 1,
             log := db.log ++ [.insertAdminEv db.nextId] })

/-- Mongo `insert_one` on `organizations`: append the document with a fresh id. -/
def organizations_insert_one (name coll : PyStr) (adminId : Nat) (db : DB) : DB :=
  { db with organizations := db.organizations ++ [⟨db.nextId, name, coll, adminId, db.now⟩],
            nextId := db.nextId + 1,
            log := db.log ++ [.insertOrgEv name] }

/-- Mongo `update_one` on `organizations` with filter `{"_id": oid}`. -/
def organizations_update_one (oid : Nat) (f : OrgDoc → OrgDoc) (db : DB) : DB :=
  { db with organizations := updateFirst (fun o => o._id == oid) f db.organizations,
            log := db.log ++ [.updateOrgEv oid] }

/-- Mongo `update_one` on `admins` with filter `{"_id": id}`. -/
def admins_update_one (id : Nat) (f : AdminDoc → AdminDoc) (db : DB) : DB :=
  { db with admins := updateFirst (fun a => a._id == id) f db.admins,
            log := db.log ++ [.updateAdminEv id] }

/-- Mongo `delete_one` on `admins` with filter `{"_id": id}`. -/
def admins_delete_one (id : Nat) (db : DB) : DB :=
  { db with admins := deleteFirst (fun a => a._id == id) db.admins,
            log := db.log ++ [.deleteAdminEv id] }

/-- Mongo `delete_one` on `organizations` with filter
`{"organization_name": name}`. -/
def organizations_delete_one (name : PyStr) (db : DB) : DB :=
  { db with organizations := deleteFirst (fun o => o.organization_name == name) db.organizations,
            log := db.log ++ [.deleteOrgEv name] }

/-! The four route handlers of `src/app/routes/orgs.py`. -/

/-- POST /org/create (`create_org`). -/
def create_org (payload : OrgCreate) (db : DB) :
    Except HTTPException OrgOut × DB :=
  let org_name := pyNorm payload.organization_name
  match findOrg db org_name with
  | some _ => (.error ⟨400, "Organization already exists"⟩, db)
  | none =>
    let collection_name := pyOfString "org_" ++ org_name
    let db := create_org_collection org_name db
    let (inserted_id, db) :=
      admins_insert_one payload.email (hash_password payload.password)
        (pyOfString "admin") org_name db
    let db := organizations_insert_one org_name collection_name inserted_id db
    (.ok ⟨org_name, collection_name, inserted_id⟩, db)

/-- GET /org/get (`get_org`); read-only, the `str` conversions of `_id` and
`admin_id` are modelled away (identifiers stay `Nat`). -/
def get_org (organization_name : PyStr) (db : DB) : Except HTTPException OrgDoc :=
  match findOrg db (pyNorm organization_name) with
  | none => .error ⟨404, "Organization not found"⟩
  | some org => .ok org

/-- The `if payload.email:` update of step 4 of `update_org`; the truthiness
of an optional string field is Python's: `None` and the empty string are
both false. -/
def email_step (payload : OrgUpdate) (current_admin : CurrentAdmin) (db : DB) : DB :=
  match payload.email with
  | some e => if e.isEmpty then db
      else admins_update_one current_admin.admin_id (fun a => { a with email := e }) db
  | none => db

/-- The `if payload.password:` update of step 4 of `update_org`. -/
def password_step (payload : OrgUpdate) (current_admin : CurrentAdmin) (db : DB) : DB :=
  match payload.password with
  | some pw => if pw.isEmpty then db
      else admins_update_one current_admin.admin_id
        (fun a => { a with password := hash_password pw }) db
  | none => db

/-- Step 4 of `update_org`: the `if payload.email:` update followed by the
`if payload.password:` update (the enclosing `if payload.email or
payload.password:` of the source is redundant, and its dead local
`update_fields` is omitted). -/
def update_org_cred (payload : OrgUpdate) (current_admin : CurrentAdmin)
    (db : DB) : DB :=
  password_step payload current_admin (email_step payload current_admin db)

/-- The tail of `update_org`: the credential updates followed by the final
re-read of the (possibly renamed) organization and the return. -/
def update_org_finish (payload : OrgUpdate) (current_admin : CurrentAdmin)
    (target_org_name : PyStr) (db : DB) : Except HTTPException OrgDoc × DB :=
  let db := update_org_cred payload current_admin db
  match findOrg db target_org_name with
  | none => (.error ⟨500, "Internal Server Error"⟩, db)
  | some updated_org => (.ok updated_org, db)

/-- PUT /org/update (`update_org`).  The source runs
`payload.organization_name.strip().lower()` unconditionally; when the
optional field is absent (`None`) this raises `AttributeError`, surfaced by
the framework as a 500. -/
def update_org (payload : OrgUpdate) (current_admin : CurrentAdmin) (db : DB) :
    Except HTTPException OrgDoc × DB :=
  let target_org_name := current_admin.org_id
  match findOrg db target_org_name with
  | none => (.error ⟨404, "Organization not found"⟩, db)
  | some org =>
    match payload.organization_name with
    | none => (.error ⟨500, "Internal Server Error"⟩, db)
    | some rawName =>
      let new_org_name := pyNorm rawName
      if new_org_name ≠ target_org_name then
        match findOrg db new_org_name with
        | some _ => (.error ⟨400, "New organization name already exists"⟩, db)
        | none =>
          let new_collection_name := pyOfString "org_" ++ new_org_name
          let db := organizations_update_one org._id
            (fun o => { o with organization_name := new_org_name,
                               collection_name := new_collection_name }) db
          let db := admins_update_one current_admin.admin_id
            (fun a => { a with organization := new_org_name }) db
          let db := rename_and_sync_collection target_org_name new_org_name db
          update_org_finish payload current_admin new_org_name db
      else
        update_org_finish payload current_admin target_org_name db

/-- DELETE /org/delete (`delete_org`); the `{"status": "deleted"}` body is
modelled as the string `"deleted"`. -/
def delete_org (organization_name : PyStr) (current_admin : CurrentAdmin)
    (db : DB) : Except HTTPException String × DB :=
  if current_admin.org_id ≠ pyNorm organization_name then
    (.error ⟨403, "You are not authorized to delete this organization"⟩, db)
  else
    let org_name := pyNorm organization_name
    match findOrg db org_name with
    | none => (.error ⟨404, "Organization not found"⟩, db)
    | some org =>
      let db := drop_org_collection org_name db
      let db := admins_delete_one org.admin_id db
      let db := organizations_delete_one org_name db
      (.ok "deleted", db)

-- DecidableEq for handler results, so witnesses can evaluate them.
deriving instance DecidableEq for Except

/-- The empty backing store. -/
def dbEmpty : DB := ⟨[], [], [], 0, 0, []⟩

/-- A concrete one-organization store used to instantiate theorems:
organization `acme` with admin id 0 and organization id 1. -/
def dbEx : DB :=
  { organizations := [⟨1, pyOfString "acme", pyOfString "org_acme", 0, 5⟩],
    admins := [⟨0, pyOfString "a@x.com", hash_password (pyOfString "pw1"),
      pyOfString "admin", pyOfString "acme"⟩],
    collections := [pyOfString "org_acme"],
    nextId := 2, now := 5, log := [] }

/-- A concrete two-organization store: `acme` (admin 0, organization id 1)
and `beta` (admin 2, organization id 3). -/
def dbEx2 : DB :=
  { organizations :=
      [⟨1, pyOfString "acme", pyOfString "org_acme", 0, 5⟩,
       ⟨3, pyOfString "beta", pyOfString "org_beta", 2, 6⟩],
    admins :=
      [⟨0, pyOfString "a@x.com", hash_password (pyOfString "pw1"),
        pyOfString "admin", pyOfString "acme"⟩,
       ⟨2, pyOfString "b@x.com", hash_password (pyOfString "pw2"),
        pyOfString "admin", pyOfString "beta"⟩],
    collections := [pyOfString "org_acme", pyOfString "org_beta"],
    nextId := 4, now := 6, log := [] }

/-- The derived-naming invariant: every organization record's
`collection_name` is `"org_" + organization_name`. -/
def DerivedNaming (db : DB) : Prop :=
  ∀ o ∈ db.organizations, o.collection_name = pyOfString "org_" ++ o.organization_name

/-! Lemmas about normalization. -/

theorem lowerChar_idem (n : Nat) : lowerChar (lowerChar n) = lowerChar n := by
  unfold lowerChar
  split <;> rename_i h
  · rw [if_neg (by omega)]
  · rfl

theorem isSpace_lowerChar (n : Nat) : isSpace (lowerChar n) = isSpace n := by
  unfold lowerChar
  split <;> rename_i h
  · have h1 : isSpace (n + 32) = false := by
      simp only [isSpace, Bool.or_eq_false_iff, beq_eq_false_iff_ne, ne_eq]
      omega
    have h2 : isSpace n = false := by
      simp only [isSpace, Bool.or_eq_false_iff, beq_eq_false_iff_ne, ne_eq]
      omega
    rw [h1, h2]
  · rfl

theorem dropWhile_isSpace_map_lower (l : PyStr) :
    (l.map lowerChar).dropWhile isSpace = (l.dropWhile isSpace).map lowerChar := by
  rw [List.dropWhile_map]
  have hp : isSpace ∘ lowerChar = isSpace := by
    funext a
    simp [Function.comp, isSpace_lowerChar]
  rw [hp]

theorem pyStrip_map_lower (l : PyStr) :
    pyStrip (pyLower l) = pyLower (pyStrip l) := by
  unfold pyStrip pyLower List.rdropWhile
  rw [dropWhile_isSpace_map_lower, ← List.map_reverse, dropWhile_isSpace_map_lower,
    ← List.map_reverse]

theorem dropWhile_rdropWhile_of_clean (p : Nat → Bool) (m : PyStr)
    (h : m.dropWhile p = m) :
    (List.rdropWhile p m).dropWhile p = List.rdropWhile p m := by
  cases m with
  | nil => simp [List.rdropWhile]
  | cons a t =>
    have ha : p a = false := by
      by_contra hp
      have hp' : p a = true := by
        cases hq : p a
        · exact absurd hq hp
        · rfl
      have := h
      rw [List.dropWhile_cons_of_pos hp'] at this
      have hlen : (List.dropWhile p t).length ≤ t.length := by
        have := List.dropWhile_sublist (l := t) (p := p)
        exact this.length_le
      have : (List.dropWhile p t).length = t.length + 1 := by
        rw [this]
        rfl
      omega
    unfold List.rdropWhile
    rw [List.reverse_cons, List.dropWhile_append]
    split
    · rename_i he
      rw [List.dropWhile_cons_of_neg (by simp [ha])]
      simp [ha]
    · rw [List.reverse_append]
      simp only [List.reverse_cons, List.reverse_nil, List.nil_append,
        List.singleton_append]
      rw [List.dropWhile_cons_of_neg (by simp [ha])]

theorem pyStrip_idem (l : PyStr) : pyStrip (pyStrip l) = pyStrip l := by
  unfold pyStrip
  rw [dropWhile_rdropWhile_of_clean isSpace _ (List.dropWhile_idempotent _ _),
    List.rdropWhile_idempotent]

theorem pyNorm_idem (l : PyStr) : pyNorm (pyNorm l) = pyNorm l := by
  unfold pyNorm
  rw [pyStrip_map_lower, pyStrip_idem]
  unfold pyLower
  rw [List.map_map]
  have hf : lowerChar ∘ lowerChar = lowerChar := by
    funext a
    simp [Function.comp, lowerChar_idem]
  rw [hf]


/-! Explicit-state characterizations of the handlers. -/

theorem create_org_of_found (p : OrgCreate) (db : DB) (o : OrgDoc)
    (hf : findOrg db (pyNorm p.organization_name) = some o) :
    create_org p db = (.error ⟨400, "Organization already exists"⟩, db) := by
  simp only [create_org, hf]

theorem create_org_of_not_found (p : OrgCreate) (db : DB)
    (hf : findOrg db (pyNorm p.organization_name) = none) :
    create_org p db =
      (.ok ⟨pyNorm p.organization_name,
            pyOfString "org_" ++ pyNorm p.organization_name, db.nextId⟩,
       { organizations := db.organizations ++
           [⟨db.nextId + 1, pyNorm p.organization_name,
             pyOfString "org_" ++ pyNorm p.organization_name, db.nextId, db.now⟩],
         admins := db.admins ++
           [⟨db.nextId, p.email, hash_password p.password, pyOfString "admin",
             pyNorm p.organization_name⟩],
         collections := db.collections ++ [pyOfString "org_" ++ pyNorm p.organization_name],
         nextId := db.nextId + 2,
         now := db.now,
         log := db.log ++ [.createColl (pyNorm p.organization_name),
                           .insertAdminEv db.nextId,
                           .insertOrgEv (pyNorm p.organization_name)] }) := by
  simp only [create_org, hf, create_org_collection, admins_insert_one,
    organizations_insert_one, List.append_assoc, List.cons_append, List.nil_append]

theorem findOrg_isSome_of_mem (db : DB) (o : OrgDoc) (ho : o ∈ db.organizations) :
    (findOrg db o.organization_name).isSome := by
  rw [findOrg, List.find?_isSome]
  exact ⟨o, ho, by simp⟩

theorem update_org_cred_set_name (p : OrgUpdate) (v : Option PyStr)
    (cur : CurrentAdmin) (db : DB) :
    update_org_cred { p with organization_name := v } cur db
      = update_org_cred p cur db := rfl

/-! Claim theorems. -/

/-- C5: create, get, update (rename target) and delete all operate on the
normalized (trimmed, lower-cased) form of the supplied name, so
differently-written inputs address the same organization key, and
normalization is idempotent. -/
theorem C5_all_routes_normalize :
    (∀ s : PyStr, pyNorm (pyNorm s) = pyNorm s) ∧
    (∀ (p : OrgCreate) (db : DB),
      create_org p db
        = create_org { p with organization_name := pyNorm p.organization_name } db) ∧
    (∀ (s : PyStr) (db : DB), get_org s db = get_org (pyNorm s) db) ∧
    (∀ (p : OrgUpdate) (s : PyStr) (cur : CurrentAdmin) (db : DB),
      p.organization_name = some s →
      update_org p cur db
        = update_org { p with organization_name := some (pyNorm s) } cur db) ∧
    (∀ (s : PyStr) (cur : CurrentAdmin) (db : DB),
      delete_org s cur db = delete_org (pyNorm s) cur db) := by
  refine ⟨pyNorm_idem, ?_, ?_, ?_, ?_⟩
  · intro p db
    simp only [create_org, pyNorm_idem]
  · intro s db
    simp only [get_org, pyNorm_idem]
  · intro p s cur db h
    simp only [update_org, update_org_finish, h, pyNorm_idem, update_org_cred_set_name]
  · intro s cur db
    simp only [delete_org, pyNorm_idem]

/-- Witness for C5 at concrete inputs. -/
theorem C5_all_routes_normalize_witness :
    update_org ⟨some (pyOfString "  ACME "), none, none⟩ ⟨0, pyOfString "acme"⟩ dbEx
      = update_org ⟨some (pyOfString "acme"), none, none⟩ ⟨0, pyOfString "acme"⟩ dbEx := by
  have h := C5_all_routes_normalize.2.2.2.1 ⟨some (pyOfString "  ACME "), none, none⟩
    (pyOfString "  ACME ") ⟨0, pyOfString "acme"⟩ dbEx rfl
  have e : pyNorm (pyOfString "  ACME ") = pyOfString "acme" := by decide
  rw [e] at h
  exact h

/-- C2: a delete whose caller's `org_id` differs from the normalized target
name fails with 403 Forbidden on an unchanged state, for every state —
in particular whether or not the target organization exists, because the
authorization check precedes the existence lookup. -/
theorem C2_delete_forbidden (name : PyStr) (cur : CurrentAdmin) (db : DB)
    (h : cur.org_id ≠ pyNorm name) :
    delete_org name cur db
      = (.error ⟨403, "You are not authorized to delete this organization"⟩, db) := by
  simp only [delete_org, if_pos h]

/-- Witness for C2: a foreign admin cannot delete `acme` (which exists in
`dbEx`), nor a nonexistent organization. -/
theorem C2_delete_forbidden_witness :
    delete_org (pyOfString "acme") ⟨7, pyOfString "other"⟩ dbEx
      = (.error ⟨403, "You are not authorized to delete this organization"⟩, dbEx) ∧
    delete_org (pyOfString "ghost") ⟨7, pyOfString "other"⟩ dbEx
      = (.error ⟨403, "You are not authorized to delete this organization"⟩, dbEx) :=
  ⟨C2_delete_forbidden (pyOfString "acme") ⟨7, pyOfString "other"⟩ dbEx (by decide),
   C2_delete_forbidden (pyOfString "ghost") ⟨7, pyOfString "other"⟩ dbEx (by decide)⟩

/-- C3: whenever an organization with the payload's normalized name already
exists, create fails with 400 Conflict "Organization already exists"; in
particular the second of two sequential creates with the same normalized
name fails that way. -/
theorem C3_duplicate_create_conflict :
    (∀ (p : OrgCreate) (db : DB), (findOrg db (pyNorm p.organization_name)).isSome →
      create_org p db = (.error ⟨400, "Organization already exists"⟩, db)) ∧
    (∀ (p q : OrgCreate) (db db' : DB) (r : OrgOut),
      create_org p db = (.ok r, db') →
      pyNorm q.organization_name = pyNorm p.organization_name →
      create_org q db' = (.error ⟨400, "Organization already exists"⟩, db')) := by
  constructor
  · intro p db hs
    obtain ⟨o, ho⟩ := Option.isSome_iff_exists.mp hs
    exact create_org_of_found p db o ho
  · intro p q db db' r hok hnorm
    cases hf : findOrg db (pyNorm p.organization_name) with
    | some o =>
      rw [create_org_of_found p db o hf] at hok
      simp at hok
    | none =>
      rw [create_org_of_not_found p db hf] at hok
      obtain ⟨-, h2⟩ := Prod.mk.injEq .. ▸ hok
      have hmem : (⟨db.nextId + 1, pyNorm p.organization_name,
          pyOfString "org_" ++ pyNorm p.organization_name, db.nextId, db.now⟩ : OrgDoc)
          ∈ db'.organizations := by
        rw [← h2]
        simp
      have hs : (findOrg db' (pyNorm q.organization_name)).isSome := by
        rw [hnorm]
        have := findOrg_isSome_of_mem db' _ hmem
        simpa using this
      obtain ⟨o', ho'⟩ := Option.isSome_iff_exists.mp hs
      exact create_org_of_found q db' o' ho'

/-- Witness for C3: creating `acme` twice from the empty store — the second
call fails with Conflict; also a create against `dbEx` (where `acme`
exists) fails with Conflict. -/
theorem C3_duplicate_create_conflict_witness :
    create_org ⟨pyOfString " ACME", pyOfString "b@x.com", pyOfString "pw2"⟩ dbEx
      = (.error ⟨400, "Organization already exists"⟩, dbEx) ∧
    create_org ⟨pyOfString "acme", pyOfString "b@x.com", pyOfString "pw2"⟩
        (create_org ⟨pyOfString "Acme", pyOfString "a@x.com", pyOfString "pw1"⟩ dbEmpty).2
      = (.error ⟨400, "Organization already exists"⟩,
         (create_org ⟨pyOfString "Acme", pyOfString "a@x.com", pyOfString "pw1"⟩ dbEmpty).2) := by
  constructor
  · exact C3_duplicate_create_conflict.1
      ⟨pyOfString " ACME", pyOfString "b@x.com", pyOfString "pw2"⟩ dbEx (by decide)
  · exact C3_duplicate_create_conflict.2
      ⟨pyOfString "Acme", pyOfString "a@x.com", pyOfString "pw1"⟩
      ⟨pyOfString "acme", pyOfString "b@x.com", pyOfString "pw2"⟩
      dbEmpty
      (create_org ⟨pyOfString "Acme", pyOfString "a@x.com", pyOfString "pw1"⟩ dbEmpty).2
      ⟨pyOfString "acme", pyOfString "org_acme", 0⟩
      (by decide) (by decide)

/-! Generic lemmas about the first-match primitives. -/

theorem mem_updateFirst {α} {q : α → Bool} {f : α → α} {a : α} :
    ∀ {l : List α}, a ∈ updateFirst q f l → a ∈ l ∨ ∃ b ∈ l, a = f b := by
  intro l
  induction l with
  | nil => intro h; simp [updateFirst] at h
  | cons c t ih =>
    intro h
    rw [updateFirst] at h
    by_cases hq : q c
    · rw [if_pos hq] at h
      rcases List.mem_cons.mp h with h1 | h1
      · exact Or.inr ⟨c, List.mem_cons_self c t, h1⟩
      · exact Or.inl (List.mem_cons_of_mem c h1)
    · rw [if_neg hq] at h
      rcases List.mem_cons.mp h with h1 | h1
      · exact Or.inl (h1 ▸ List.mem_cons_self c t)
      · rcases ih h1 with h2 | ⟨b, hb, h2⟩
        · exact Or.inl (List.mem_cons_of_mem c h2)
        · exact Or.inr ⟨b, List.mem_cons_of_mem c hb, h2⟩

theorem mem_deleteFirst {α} {q : α → Bool} {a : α} :
    ∀ {l : List α}, a ∈ deleteFirst q l → a ∈ l := by
  intro l
  induction l with
  | nil => intro h; simp [deleteFirst] at h
  | cons c t ih =>
    intro h
    rw [deleteFirst] at h
    by_cases hq : q c
    · rw [if_pos hq] at h
      exact List.mem_cons_of_mem c h
    · rw [if_neg hq] at h
      rcases List.mem_cons.mp h with h1 | h1
      · exact h1 ▸ List.mem_cons_self c t
      · exact List.mem_cons_of_mem c (ih h1)

theorem updateFirst_eq_map {α} (key : α → Nat) (k : Nat) (f : α → α) :
    ∀ (l : List α), l.Pairwise (fun a b => key a ≠ key b) →
      updateFirst (fun a => key a == k) f l
        = l.map (fun a => if key a = k then f a else a) := by
  intro l
  induction l with
  | nil => intro _; rfl
  | cons c t ih =>
    intro hW
    rw [List.pairwise_cons] at hW
    rw [updateFirst, List.map_cons]
    by_cases hq : key c = k
    · rw [if_pos (by simpa using hq), if_pos hq]
      have ht : t.map (fun a => if key a = k then f a else a) = t.map id := by
        apply List.map_congr_left
        intro a ha
        have : key a ≠ k := fun hk => hW.1 a ha (hq ▸ hk ▸ rfl)
        simp [this]
      rw [ht, List.map_id]
    · rw [if_neg (by simpa using hq), if_neg hq, ih hW.2]

theorem find?_unique_mem {α} {q : α → Bool} {a : α} :
    ∀ {l : List α}, a ∈ l → q a → (∀ x ∈ l, q x → x = a) → l.find? q = some a := by
  intro l
  induction l with
  | nil => intro h; simp at h
  | cons c t ih =>
    intro hmem hq huniq
    by_cases hc : q c
    · rw [List.find?_cons_of_pos _ hc]
      rw [huniq c (List.mem_cons_self c t) hc]
    · rw [List.find?_cons_of_neg _ hc]
      have hat : a ∈ t := by
        rcases List.mem_cons.mp hmem with h1 | h1
        · exact absurd (h1 ▸ hq) hc
        · exact h1
      exact ih hat hq (fun x hx => huniq x (List.mem_cons_of_mem c hx))

/-! More claim theorems. -/

/-- C10: failed uniqueness checks modify nothing: a create that hits the
Conflict path and an update whose rename hits the Conflict path both return
the state exactly as it was — no collection provisioned, no Admin record
written, no Organization record written. -/
theorem C10_conflict_paths_pure :
    (∀ (p : OrgCreate) (db : DB), (findOrg db (pyNorm p.organization_name)).isSome →
      create_org p db = (.error ⟨400, "Organization already exists"⟩, db)) ∧
    (∀ (p : OrgUpdate) (cur : CurrentAdmin) (db : DB) (s : PyStr) (org : OrgDoc),
      findOrg db cur.org_id = some org →
      p.organization_name = some s →
      pyNorm s ≠ cur.org_id →
      (findOrg db (pyNorm s)).isSome →
      update_org p cur db = (.error ⟨400, "New organization name already exists"⟩, db)) := by
  constructor
  · intro p db hs
    obtain ⟨o, ho⟩ := Option.isSome_iff_exists.mp hs
    exact create_org_of_found p db o ho
  · intro p cur db s org hf hname hne hs
    obtain ⟨o, ho⟩ := Option.isSome_iff_exists.mp hs
    simp only [update_org, hf, hname, if_pos hne, ho]

/-- Witness for C10: in a two-organization store, creating `acme` again and
renaming `beta` to `acme` both fail with Conflict and leave the store
untouched. -/
theorem C10_conflict_paths_pure_witness :
    create_org ⟨pyOfString "acme", pyOfString "c@x.com", pyOfString "pw"⟩ dbEx2
      = (.error ⟨400, "Organization already exists"⟩, dbEx2) ∧
    update_org ⟨some (pyOfString "Acme"), none, none⟩ ⟨2, pyOfString "beta"⟩ dbEx2
      = (.error ⟨400, "New organization name already exists"⟩, dbEx2) := by
  constructor
  · exact C10_conflict_paths_pure.1
      ⟨pyOfString "acme", pyOfString "c@x.com", pyOfString "pw"⟩ dbEx2 (by decide)
  · exact C10_conflict_paths_pure.2
      ⟨some (pyOfString "Acme"), none, none⟩ ⟨2, pyOfString "beta"⟩ dbEx2
      (pyOfString "Acme")
      ⟨3, pyOfString "beta", pyOfString "org_beta", 2, 6⟩
      (by decide) rfl (by decide) (by decide)

/-- C9: an authorized delete of an existing organization performs, in order,
the collection drop, the Admin deletion keyed by the Organization's stored
`admin_id`, and the Organization deletion, then returns "deleted"; when the
organization record is absent it fails with 404 and no side effect at all. -/
theorem C9_delete_effects_in_order :
    (∀ (name : PyStr) (cur : CurrentAdmin) (db : DB) (org : OrgDoc),
      cur.org_id = pyNorm name →
      findOrg db (pyNorm name) = some org →
      delete_org name cur db =
        (.ok "deleted",
         { organizations :=
             deleteFirst (fun o => o.organization_name == pyNorm name) db.organizations,
           admins := deleteFirst (fun a => a._id == org.admin_id) db.admins,
           collections := db.collections.filter (fun c => c ≠ pyOfString "org_" ++ pyNorm name),
           nextId := db.nextId,
           now := db.now,
           log := db.log ++ [.dropColl (pyNorm name),
                             .deleteAdminEv org.admin_id,
                             .deleteOrgEv (pyNorm name)] })) ∧
    (∀ (name : PyStr) (cur : CurrentAdmin) (db : DB),
      cur.org_id = pyNorm name →
      findOrg db (pyNorm name) = none →
      delete_org name cur db = (.error ⟨404, "Organization not found"⟩, db)) := by
  constructor
  · intro name cur db org hid hf
    have hcond : ¬(cur.org_id ≠ pyNorm name) := fun hne => hne hid
    simp only [delete_org, if_neg hcond, hf, drop_org_collection,
      admins_delete_one, organizations_delete_one, List.append_assoc,
      List.cons_append, List.nil_append]
  · intro name cur db hid hf
    have hcond : ¬(cur.org_id ≠ pyNorm name) := fun hne => hne hid
    simp only [delete_org, if_neg hcond, hf]

/-- Witness for C9: the owner deletes `acme` from `dbEx` with the three
effects logged in order; deleting the absent `ghost` fails with 404. -/
theorem C9_delete_effects_in_order_witness :
    delete_org (pyOfString " ACME ") ⟨0, pyOfString "acme"⟩ dbEx
      = (.ok "deleted",
         { organizations := [], admins := [], collections := [],
           nextId := 2, now := 5,
           log := [.dropColl (pyOfString "acme"),
                   .deleteAdminEv 0,
                   .deleteOrgEv (pyOfString "acme")] }) ∧
    delete_org (pyOfString "ghost") ⟨0, pyOfString "ghost"⟩ dbEx
      = (.error ⟨404, "Organization not found"⟩, dbEx) := by
  constructor
  · have h := C9_delete_effects_in_order.1 (pyOfString " ACME ") ⟨0, pyOfString "acme"⟩
      dbEx ⟨1, pyOfString "acme", pyOfString "org_acme", 0, 5⟩ (by decide) (by decide)
    rw [h]
    decide
  · exact C9_delete_effects_in_order.2 (pyOfString "ghost") ⟨0, pyOfString "ghost"⟩
      dbEx (by decide) (by decide)

/-- C7: the claim says an update whose payload omits `organization_name`
completes without error; on the code the unconditional
`payload.organization_name.strip().lower()` dereferences `None` and raises
`AttributeError` (an internal 500), as evaluated here on a state whose
organization and admin both exist. -/
theorem C7_update_without_name_errors :
    update_org ⟨none, none, some (pyOfString "newpw")⟩ ⟨0, pyOfString "acme"⟩ dbEx
      = (.error ⟨500, "Internal Server Error"⟩, dbEx) := by decide

/-! Lemmas about the credential-update steps. -/

theorem email_step_organizations (p : OrgUpdate) (cur : CurrentAdmin) (db : DB) :
    (email_step p cur db).organizations = db.organizations := by
  cases he : p.email <;>
    simp only [email_step, he, admins_update_one] <;>
    (try split_ifs) <;> rfl

theorem password_step_organizations (p : OrgUpdate) (cur : CurrentAdmin) (db : DB) :
    (password_step p cur db).organizations = db.organizations := by
  cases hp : p.password <;>
    simp only [password_step, hp, admins_update_one] <;>
    (try split_ifs) <;> rfl

theorem update_org_cred_organizations (p : OrgUpdate) (cur : CurrentAdmin) (db : DB) :
    (update_org_cred p cur db).organizations = db.organizations := by
  rw [update_org_cred, password_step_organizations, email_step_organizations]

theorem email_step_collections (p : OrgUpdate) (cur : CurrentAdmin) (db : DB) :
    (email_step p cur db).collections = db.collections := by
  cases he : p.email <;>
    simp only [email_step, he, admins_update_one] <;>
    (try split_ifs) <;> rfl

theorem password_step_collections (p : OrgUpdate) (cur : CurrentAdmin) (db : DB) :
    (password_step p cur db).collections = db.collections := by
  cases hp : p.password <;>
    simp only [password_step, hp, admins_update_one] <;>
    (try split_ifs) <;> rfl

theorem update_org_cred_collections (p : OrgUpdate) (cur : CurrentAdmin) (db : DB) :
    (update_org_cred p cur db).collections = db.collections := by
  rw [update_org_cred, password_step_collections, email_step_collections]

theorem update_org_finish_snd (p : OrgUpdate) (cur : CurrentAdmin)
    (t : PyStr) (db : DB) :
    (update_org_finish p cur t db).2 = update_org_cred p cur db := by
  rw [update_org_finish]
  cases h : findOrg (update_org_cred p cur db) t <;> simp [h]

theorem mem_email_step_admins (p : OrgUpdate) (cur : CurrentAdmin) (db : DB)
    (a : AdminDoc) (ha : a ∈ (email_step p cur db).admins) :
    ∃ b ∈ db.admins, a.password = b.password := by
  cases he : p.email with
  | none =>
    rw [email_step, he] at ha
    exact ⟨a, ha, rfl⟩
  | some e =>
    simp only [email_step, he] at ha
    by_cases hee : e.isEmpty
    · rw [if_pos hee] at ha
      exact ⟨a, ha, rfl⟩
    · rw [if_neg hee] at ha
      simp only [admins_update_one] at ha
      rcases mem_updateFirst ha with h1 | ⟨b, hb, h2⟩
      · exact ⟨a, h1, rfl⟩
      · exact ⟨b, hb, by rw [h2]⟩

theorem mem_password_step_admins (p : OrgUpdate) (cur : CurrentAdmin) (db : DB)
    (a : AdminDoc) (ha : a ∈ (password_step p cur db).admins) :
    (∃ b ∈ db.admins, a.password = b.password) ∨
    (∃ pw, p.password = some pw ∧ a.password = hash_password pw) := by
  cases hp : p.password with
  | none =>
    rw [password_step, hp] at ha
    exact Or.inl ⟨a, ha, rfl⟩
  | some pw =>
    simp only [password_step, hp] at ha
    by_cases hpe : pw.isEmpty
    · rw [if_pos hpe] at ha
      exact Or.inl ⟨a, ha, rfl⟩
    · rw [if_neg hpe] at ha
      simp only [admins_update_one] at ha
      rcases mem_updateFirst ha with h1 | ⟨b, hb, h2⟩
      · exact Or.inl ⟨a, h1, rfl⟩
      · exact Or.inr ⟨pw, rfl, by rw [h2]⟩

theorem mem_update_org_cred_admins (p : OrgUpdate) (cur : CurrentAdmin) (db : DB)
    (a : AdminDoc) (ha : a ∈ (update_org_cred p cur db).admins) :
    (∃ b ∈ db.admins, a.password = b.password) ∨
    (∃ pw, p.password = some pw ∧ a.password = hash_password pw) := by
  rw [update_org_cred] at ha
  rcases mem_password_step_admins p cur _ a ha with ⟨b, hb, h2⟩ | h2
  · rcases mem_email_step_admins p cur db b hb with ⟨c, hc, h3⟩
    exact Or.inl ⟨c, hc, h2.trans h3⟩
  · exact Or.inr h2

theorem mem_rename_admin_update (newName : PyStr) (id : Nat) (db : DB)
    (a : AdminDoc)
    (ha : a ∈ (admins_update_one id (fun x => { x with organization := newName }) db).admins) :
    ∃ b ∈ db.admins, a.password = b.password := by
  simp only [admins_update_one] at ha
  rcases mem_updateFirst ha with h1 | ⟨b, hb, h2⟩
  · exact ⟨a, h1, rfl⟩
  · exact ⟨b, hb, by rw [h2]⟩

/-- C8: every password an operation stores in an Admin record is the
Credential Store's hash of the supplied plaintext — a freshly created admin
carries `hash_password payload.password`, an updated admin carries either a
password already stored or `hash_password` of the payload's password — and
a hash is never equal to the plaintext, so no plaintext is ever written. -/
theorem C8_passwords_stored_hashed :
    (∀ s : PyStr, hash_password s ≠ s) ∧
    (∀ (p : OrgCreate) (db : DB) (a : AdminDoc), a ∈ (create_org p db).2.admins →
      (∃ b ∈ db.admins, a.password = b.password) ∨
      a.password = hash_password p.password) ∧
    (∀ (p : OrgUpdate) (cur : CurrentAdmin) (db : DB) (a : AdminDoc),
      a ∈ (update_org p cur db).2.admins →
      (∃ b ∈ db.admins, a.password = b.password) ∨
      (∃ pw, p.password = some pw ∧ a.password = hash_password pw)) := by
  refine ⟨?_, ?_, ?_⟩
  · intro s h
    have := congrArg List.length h
    simp [hash_password] at this
  · intro p db a ha
    cases hf : findOrg db (pyNorm p.organization_name) with
    | some o =>
      rw [create_org_of_found p db o hf] at ha
      exact Or.inl ⟨a, ha, rfl⟩
    | none =>
      rw [create_org_of_not_found p db hf] at ha
      simp only [List.mem_append, List.mem_singleton] at ha
      rcases ha with h1 | h1
      · exact Or.inl ⟨a, h1, rfl⟩
      · subst h1
        exact Or.inr rfl
  · intro p cur db a ha
    cases hf : findOrg db cur.org_id with
    | none =>
      simp only [update_org, hf] at ha
      exact Or.inl ⟨a, ha, rfl⟩
    | some org =>
      cases hn : p.organization_name with
      | none =>
        simp only [update_org, hf, hn] at ha
        exact Or.inl ⟨a, ha, rfl⟩
      | some s =>
        simp only [update_org, hf, hn] at ha
        by_cases hne : pyNorm s ≠ cur.org_id
        · rw [if_pos hne] at ha
          cases hf2 : findOrg db (pyNorm s) with
          | some o2 =>
            simp only [hf2] at ha
            exact Or.inl ⟨a, ha, rfl⟩
          | none =>
            simp only [hf2] at ha
            rw [update_org_finish_snd] at ha
            rcases mem_update_org_cred_admins p cur _ a ha with ⟨b, hb, h2⟩ | h2
            · simp only [rename_and_sync_collection] at hb
              rcases mem_rename_admin_update (pyNorm s) cur.admin_id _ b hb with ⟨c, hc, h3⟩
              simp only [organizations_update_one] at hc
              exact Or.inl ⟨c, hc, h2.trans h3⟩
            · exact Or.inr h2
        · rw [if_neg hne] at ha
          rw [update_org_finish_snd] at ha
          exact mem_update_org_cred_admins p cur db a ha

/-- Witness for C8: the admin created from the empty store carries the hash
of `pw1`, and deciding the update conjunct on a password change in `dbEx`. -/
theorem C8_passwords_stored_hashed_witness :
    (hash_password (pyOfString "pw1") ≠ pyOfString "pw1") ∧
    ((∃ b ∈ dbEmpty.admins,
        (AdminDoc.mk 0 (pyOfString "a@x.com") (hash_password (pyOfString "pw1"))
          (pyOfString "admin") (pyOfString "acme")).password = b.password) ∨
      (AdminDoc.mk 0 (pyOfString "a@x.com") (hash_password (pyOfString "pw1"))
        (pyOfString "admin") (pyOfString "acme")).password
        = hash_password (pyOfString "pw1")) := by
  constructor
  · exact C8_passwords_stored_hashed.1 (pyOfString "pw1")
  · exact C8_passwords_stored_hashed.2.1
      ⟨pyOfString "Acme", pyOfString "a@x.com", pyOfString "pw1"⟩ dbEmpty
      ⟨0, pyOfString "a@x.com", hash_password (pyOfString "pw1"),
        pyOfString "admin", pyOfString "acme"⟩
      (by decide)

/-- C4: `collection_name = "org_" + organization_name` holds for the record
returned by create, and the invariant over the whole store is preserved by
create, update (including a successful rename, which writes both fields
together from the same normalized name) and delete. -/
theorem C4_derived_naming :
    (∀ (p : OrgCreate) (db : DB) (r : OrgOut) (db' : DB),
      create_org p db = (.ok r, db') →
      r.collection_name = pyOfString "org_" ++ r.organization_name) ∧
    (∀ (p : OrgCreate) (db : DB), DerivedNaming db → DerivedNaming (create_org p db).2) ∧
    (∀ (p : OrgUpdate) (cur : CurrentAdmin) (db : DB),
      DerivedNaming db → DerivedNaming (update_org p cur db).2) ∧
    (∀ (name : PyStr) (cur : CurrentAdmin) (db : DB),
      DerivedNaming db → DerivedNaming (delete_org name cur db).2) := by
  refine ⟨?_, ?_, ?_, ?_⟩
  · intro p db r db' hok
    cases hf : findOrg db (pyNorm p.organization_name) with
    | some o =>
      rw [create_org_of_found p db o hf] at hok
      simp at hok
    | none =>
      rw [create_org_of_not_found p db hf] at hok
      obtain ⟨h1, -⟩ := Prod.mk.injEq .. ▸ hok
      obtain h2 := Except.ok.injEq .. ▸ h1
      rw [← h2]
  · intro p db hD o ho
    cases hf : findOrg db (pyNorm p.organization_name) with
    | some o2 =>
      rw [create_org_of_found p db o2 hf] at ho
      exact hD o ho
    | none =>
      rw [create_org_of_not_found p db hf] at ho
      simp only [List.mem_append, List.mem_singleton] at ho
      rcases ho with h1 | h1
      · exact hD o h1
      · subst h1
        rfl
  · intro p cur db hD o ho
    cases hf : findOrg db cur.org_id with
    | none =>
      simp only [update_org, hf] at ho
      exact hD o ho
    | some org =>
      cases hn : p.organization_name with
      | none =>
        simp only [update_org, hf, hn] at ho
        exact hD o ho
      | some s =>
        simp only [update_org, hf, hn] at ho
        by_cases hne : pyNorm s ≠ cur.org_id
        · rw [if_pos hne] at ho
          cases hf2 : findOrg db (pyNorm s) with
          | some o2 =>
            simp only [hf2] at ho
            exact hD o ho
          | none =>
            simp only [hf2] at ho
            rw [update_org_finish_snd] at ho
            rw [update_org_cred_organizations] at ho
            simp only [rename_and_sync_collection, admins_update_one,
              organizations_update_one] at ho
            rcases mem_updateFirst ho with h1 | ⟨b, hb, h2⟩
            · exact hD o h1
            · subst h2
              rfl
        · rw [if_neg hne] at ho
          rw [update_org_finish_snd] at ho
          rw [update_org_cred_organizations] at ho
          exact hD o ho
  · intro name cur db hD o ho
    by_cases hauth : cur.org_id ≠ pyNorm name
    · simp only [delete_org, if_pos hauth] at ho
      exact hD o ho
    · cases hf : findOrg db (pyNorm name) with
      | none =>
        simp only [delete_org, if_neg hauth, hf] at ho
        exact hD o ho
      | some org =>
        simp only [delete_org, if_neg hauth, hf, drop_org_collection,
          admins_delete_one, organizations_delete_one] at ho
        exact hD o (mem_deleteFirst ho)

/-- Witness for C4: the returned record of a concrete create satisfies the
derived-naming equation, and the invariant holds after a concrete rename. -/
theorem C4_derived_naming_witness :
    (OrgOut.mk (pyOfString "acme") (pyOfString "org_acme") 0).collection_name
      = pyOfString "org_" ++ (OrgOut.mk (pyOfString "acme") (pyOfString "org_acme") 0).organization_name ∧
    DerivedNaming (update_org ⟨some (pyOfString "Beta"), none, none⟩
      ⟨0, pyOfString "acme"⟩ dbEx).2 := by
  constructor
  · exact C4_derived_naming.1
      ⟨pyOfString "Acme", pyOfString "a@x.com", pyOfString "pw1"⟩ dbEmpty
      ⟨pyOfString "acme", pyOfString "org_acme", 0⟩
      (create_org ⟨pyOfString "Acme", pyOfString "a@x.com", pyOfString "pw1"⟩ dbEmpty).2
      (by decide)
  · exact C4_derived_naming.2.2.1 ⟨some (pyOfString "Beta"), none, none⟩
      ⟨0, pyOfString "acme"⟩ dbEx (by unfold DerivedNaming; decide)

/-! Map-form characterizations of the admin updates, under distinct ids. -/

theorem findOrg_eq_of_organizations_eq (db1 db2 : DB) (n : PyStr)
    (h : db1.organizations = db2.organizations) :
    findOrg db1 n = findOrg db2 n := by
  simp only [findOrg, h]

theorem email_step_admins_map (p : OrgUpdate) (cur : CurrentAdmin) (db : DB)
    (hWa : db.admins.Pairwise (fun a b => a._id ≠ b._id)) :
    (email_step p cur db).admins
      = db.admins.map (fun a =>
          if a._id = cur.admin_id then
            { a with email := match p.email with
                | some e => if e.isEmpty then a.email else e
                | none => a.email }
          else a) := by
  cases he : p.email with
  | none =>
    simp only [email_step, he]
    have hg : (fun (a : AdminDoc) =>
        if a._id = cur.admin_id then { a with email := a.email } else a)
          = fun a => a := by
      funext a
      split_ifs <;> rfl
    rw [hg, List.map_id']
  | some e =>
    by_cases hee : e.isEmpty
    · simp only [email_step, he, if_pos hee]
      have hg : (fun (a : AdminDoc) =>
          if a._id = cur.admin_id then { a with email := a.email } else a)
            = fun a => a := by
        funext a
        split_ifs <;> rfl
      rw [hg, List.map_id']
    · simp only [email_step, he, if_neg hee, admins_update_one]
      rw [updateFirst_eq_map (fun a => a._id) cur.admin_id _ db.admins hWa]

theorem password_step_admins_map (p : OrgUpdate) (cur : CurrentAdmin) (db : DB)
    (hWa : db.admins.Pairwise (fun a b => a._id ≠ b._id)) :
    (password_step p cur db).admins
      = db.admins.map (fun a =>
          if a._id = cur.admin_id then
            { a with password := match p.password with
                | some pw => if pw.isEmpty then a.password else hash_password pw
                | none => a.password }
          else a) := by
  cases hp : p.password with
  | none =>
    simp only [password_step, hp]
    have hg : (fun (a : AdminDoc) =>
        if a._id = cur.admin_id then { a with password := a.password } else a)
          = fun a => a := by
      funext a
      split_ifs <;> rfl
    rw [hg, List.map_id']
  | some pw =>
    by_cases hpe : pw.isEmpty
    · simp only [password_step, hp, if_pos hpe]
      have hg : (fun (a : AdminDoc) =>
          if a._id = cur.admin_id then { a with password := a.password } else a)
            = fun a => a := by
        funext a
        split_ifs <;> rfl
      rw [hg, List.map_id']
    · simp only [password_step, hp, if_neg hpe, admins_update_one]
      rw [updateFirst_eq_map (fun a => a._id) cur.admin_id _ db.admins hWa]

theorem pairwise_id_map_if (k : Nat) (g : AdminDoc → AdminDoc) (l : List AdminDoc)
    (hg : ∀ a, (g a)._id = a._id)
    (hW : l.Pairwise (fun a b => a._id ≠ b._id)) :
    (l.map (fun a => if a._id = k then g a else a)).Pairwise
      (fun a b => a._id ≠ b._id) := by
  rw [List.pairwise_map]
  apply hW.imp
  intro a b hab
  by_cases h1 : a._id = k <;> by_cases h2 : b._id = k <;>
    simp [h1, h2, hg] <;> omega

theorem update_org_cred_admins_map (p : OrgUpdate) (cur : CurrentAdmin) (db : DB)
    (hWa : db.admins.Pairwise (fun a b => a._id ≠ b._id)) :
    (update_org_cred p cur db).admins
      = db.admins.map (fun a =>
          if a._id = cur.admin_id then
            { a with
              email := match p.email with
                | some e => if e.isEmpty then a.email else e
                | none => a.email,
              password := match p.password with
                | some pw => if pw.isEmpty then a.password else hash_password pw
                | none => a.password }
          else a) := by
  rw [update_org_cred]
  have hWa2 : (email_step p cur db).admins.Pairwise (fun a b => a._id ≠ b._id) := by
    rw [email_step_admins_map p cur db hWa]
    apply pairwise_id_map_if
    · intro a
      rfl
    · exact hWa
  rw [password_step_admins_map p cur _ hWa2, email_step_admins_map p cur db hWa,
    List.map_map]
  apply List.map_congr_left
  intro a _
  by_cases h : a._id = cur.admin_id
  · simp only [Function.comp, if_pos h]
  · simp only [Function.comp, if_neg h]

/-- C6: an update whose payload name normalizes to the caller's own current
organization name and which carries a new password succeeds, returns the
organization record unchanged (hence `organization_name`, `collection_name`,
`admin_id`, `created_at` are all untouched — the organizations collection
and the dynamic collections are exactly as before), and the only admin
mutated is the caller's, in its password hash and (if supplied) email. -/
theorem C6_credential_only_update
    (p : OrgUpdate) (cur : CurrentAdmin) (db : DB) (s pw : PyStr) (org : OrgDoc)
    (hWa : db.admins.Pairwise (fun a b => a._id ≠ b._id))
    (hname : p.organization_name = some s)
    (hsame : pyNorm s = cur.org_id)
    (hpw : p.password = some pw)
    (hpwne : pw.isEmpty = false)
    (hf : findOrg db cur.org_id = some org) :
    (update_org p cur db).1 = .ok org ∧
    (update_org p cur db).2.organizations = db.organizations ∧
    (update_org p cur db).2.collections = db.collections ∧
    (update_org p cur db).2.admins = db.admins.map (fun a =>
      if a._id = cur.admin_id then
        { a with
          email := match p.email with
            | some e => if e.isEmpty then a.email else e
            | none => a.email,
          password := hash_password pw }
      else a) := by
  have hnot : ¬(pyNorm s ≠ cur.org_id) := fun h => h hsame
  have hcred : findOrg (update_org_cred p cur db) cur.org_id = some org := by
    rw [findOrg_eq_of_organizations_eq _ db _ (update_org_cred_organizations p cur db)]
    exact hf
  refine ⟨?_, ?_, ?_, ?_⟩
  · simp only [update_org, hf, hname, if_neg hnot, update_org_finish, hcred]
  · simp only [update_org, hf, hname, if_neg hnot]
    rw [update_org_finish_snd, update_org_cred_organizations]
  · simp only [update_org, hf, hname, if_neg hnot]
    rw [update_org_finish_snd, update_org_cred_collections]
  · simp only [update_org, hf, hname, if_neg hnot]
    rw [update_org_finish_snd, update_org_cred_admins_map p cur db hWa]
    apply List.map_congr_left
    intro a _
    by_cases h : a._id = cur.admin_id
    · simp [h, hpw, hpwne]
    · simp only [if_neg h]

/-- Witness for C6: the admin of `acme` changes only their password. -/
theorem C6_credential_only_update_witness :
    (update_org ⟨some (pyOfString " ACME"), none, some (pyOfString "pw2")⟩
        ⟨0, pyOfString "acme"⟩ dbEx).1
      = .ok ⟨1, pyOfString "acme", pyOfString "org_acme", 0, 5⟩ ∧
    (update_org ⟨some (pyOfString " ACME"), none, some (pyOfString "pw2")⟩
        ⟨0, pyOfString "acme"⟩ dbEx).2.organizations = dbEx.organizations ∧
    (update_org ⟨some (pyOfString " ACME"), none, some (pyOfString "pw2")⟩
        ⟨0, pyOfString "acme"⟩ dbEx).2.collections = dbEx.collections ∧
    (update_org ⟨some (pyOfString " ACME"), none, some (pyOfString "pw2")⟩
        ⟨0, pyOfString "acme"⟩ dbEx).2.admins
      = [⟨0, pyOfString "a@x.com", hash_password (pyOfString "pw2"),
          pyOfString "admin", pyOfString "acme"⟩] := by
  have h := C6_credential_only_update
    ⟨some (pyOfString " ACME"), none, some (pyOfString "pw2")⟩
    ⟨0, pyOfString "acme"⟩ dbEx (pyOfString " ACME") (pyOfString "pw2")
    ⟨1, pyOfString "acme", pyOfString "org_acme", 0, 5⟩
    (by decide) rfl (by decide) rfl (by decide) (by decide)
  exact ⟨h.1, h.2.1, h.2.2.1, by rw [h.2.2.2]; decide⟩

/-- C1: a successful rename from the caller's organization A to a free
normalized name B makes a subsequent `get(A)` fail with 404 NotFound, makes
`get(B)` return the organization's record with
`collection_name = "org_" + B`, and sets the caller's Admin record's
organization back-reference to B. -/
theorem C1_rename_consistency
    (p : OrgUpdate) (cur : CurrentAdmin) (db : DB) (rawB A B : PyStr)
    (org : OrgDoc) (adm : AdminDoc)
    (hWn : db.organizations.Pairwise (fun a b => a.organization_name ≠ b.organization_name))
    (hWi : db.organizations.Pairwise (fun a b => a._id ≠ b._id))
    (hWa : db.admins.Pairwise (fun a b => a._id ≠ b._id))
    (hA : cur.org_id = A)
    (hAnorm : pyNorm A = A)
    (hfA : findOrg db A = some org)
    (hadm : findAdmin db cur.admin_id = some adm)
    (hpname : p.organization_name = some rawB)
    (hB : pyNorm rawB = B)
    (hne : B ≠ A)
    (hfB : findOrg db B = none) :
    (∃ r, (update_org p cur db).1 = .ok r) ∧
    get_org A (update_org p cur db).2 = .error ⟨404, "Organization not found"⟩ ∧
    (∃ r, get_org B (update_org p cur db).2 = .ok r ∧
      r.organization_name = B ∧
      r.collection_name = pyOfString "org_" ++ B) ∧
    (∃ a', findAdmin (update_org p cur db).2 cur.admin_id = some a' ∧
      a'.organization = B) := by
  subst hA
  subst hB
  have hsym : Symmetric (fun a b : OrgDoc => a._id ≠ b._id) :=
    fun a b h => Ne.symm h
  have hsymn : Symmetric (fun a b : OrgDoc => a.organization_name ≠ b.organization_name) :=
    fun a b h => Ne.symm h
  have hfA' := hfA
  rw [findOrg] at hfA'
  have horgmem : org ∈ db.organizations := List.mem_of_find?_eq_some hfA'
  have horgname : org.organization_name = cur.org_id := by
    have := List.find?_some hfA'
    simpa using this
  have huniq_id : ∀ o' ∈ db.organizations, o'._id = org._id → o' = org := by
    intro o' ho' hid
    by_contra hneq
    exact (hWi.forall hsym ho' horgmem hneq) hid
  have huniq_name : ∀ o' ∈ db.organizations,
      o'.organization_name = org.organization_name → o' = org := by
    intro o' ho' hnm
    by_contra hneq
    exact (hWn.forall hsymn ho' horgmem hneq) hnm
  have hnel : pyNorm rawB ≠ cur.org_id := hne
  have h2 : (update_org p cur db).2 = update_org_cred p cur
      (rename_and_sync_collection cur.org_id (pyNorm rawB)
        (admins_update_one cur.admin_id
          (fun a => { a with organization := pyNorm rawB })
          (organizations_update_one org._id
            (fun o => { o with organization_name := pyNorm rawB,
                               collection_name := pyOfString "org_" ++ pyNorm rawB }) db))) := by
    simp only [update_org, hfA, hpname, if_pos hnel, hfB, update_org_finish_snd]
  have horgs : (update_org p cur db).2.organizations
      = db.organizations.map (fun o => if o._id = org._id then
          { o with organization_name := pyNorm rawB,
                   collection_name := pyOfString "org_" ++ pyNorm rawB } else o) := by
    rw [h2, update_org_cred_organizations]
    simp only [rename_and_sync_collection, admins_update_one, organizations_update_one]
    rw [updateFirst_eq_map (fun o => o._id) org._id _ db.organizations hWi]
  have hfB' : findOrg (update_org p cur db).2 (pyNorm rawB)
      = some { org with organization_name := pyNorm rawB,
                        collection_name := pyOfString "org_" ++ pyNorm rawB } := by
    rw [findOrg, horgs]
    apply find?_unique_mem
    · exact List.mem_map.mpr ⟨org, horgmem, by simp⟩
    · simp
    · intro x hx hqx
      obtain ⟨o', ho', hxo⟩ := List.mem_map.mp hx
      by_cases hid : o'._id = org._id
      · have heq : o' = org := huniq_id o' ho' hid
        subst heq
        rw [← hxo]
        simp [hid]
      · rw [← hxo] at hqx
        simp only [if_neg hid] at hqx
        exfalso
        rw [findOrg, List.find?_eq_none] at hfB
        exact (hfB o' ho') hqx
  have hgetAnone : findOrg (update_org p cur db).2 cur.org_id = none := by
    rw [findOrg, horgs, List.find?_eq_none]
    intro x hx
    obtain ⟨o', ho', hxo⟩ := List.mem_map.mp hx
    by_cases hid : o'._id = org._id
    · have heq : o' = org := huniq_id o' ho' hid
      subst heq
      rw [← hxo]
      simp [hid, hnel]
    · rw [← hxo]
      simp only [if_neg hid, beq_iff_eq]
      intro hcontra
      exact hid (congrArg OrgDoc._id (huniq_name o' ho' (hcontra.trans horgname.symm)))
  refine ⟨?_, ?_, ?_, ?_⟩
  · refine ⟨{ org with organization_name := pyNorm rawB,
                       collection_name := pyOfString "org_" ++ pyNorm rawB }, ?_⟩
    have hfst : (update_org p cur db).1 = (update_org_finish p cur (pyNorm rawB)
        (rename_and_sync_collection cur.org_id (pyNorm rawB)
          (admins_update_one cur.admin_id
            (fun a => { a with organization := pyNorm rawB })
            (organizations_update_one org._id
              (fun o => { o with organization_name := pyNorm rawB,
                                 collection_name := pyOfString "org_" ++ pyNorm rawB }) db)))).1 := by
      simp only [update_org, hfA, hpname, if_pos hnel, hfB]
    rw [h2] at hfB'
    rw [hfst]
    simp only [update_org_finish, hfB']
  · simp only [get_org, hAnorm, hgetAnone]
  · refine ⟨{ org with organization_name := pyNorm rawB,
                       collection_name := pyOfString "org_" ++ pyNorm rawB }, ?_, rfl, rfl⟩
    simp only [get_org, pyNorm_idem, hfB']
  · have hXadm : (rename_and_sync_collection cur.org_id (pyNorm rawB)
        (admins_update_one cur.admin_id
          (fun a => { a with organization := pyNorm rawB })
          (organizations_update_one org._id
            (fun o => { o with organization_name := pyNorm rawB,
                               collection_name := pyOfString "org_" ++ pyNorm rawB }) db))).admins
        = db.admins.map (fun a => if a._id = cur.admin_id then
            { a with organization := pyNorm rawB } else a) := by
      simp only [rename_and_sync_collection, admins_update_one, organizations_update_one]
      rw [updateFirst_eq_map (fun a => a._id) cur.admin_id _ db.admins hWa]
    have hWaX : ((rename_and_sync_collection cur.org_id (pyNorm rawB)
        (admins_update_one cur.admin_id
          (fun a => { a with organization := pyNorm rawB })
          (organizations_update_one org._id
            (fun o => { o with organization_name := pyNorm rawB,
                               collection_name := pyOfString "org_" ++ pyNorm rawB }) db))).admins).Pairwise
        (fun a b => a._id ≠ b._id) := by
      rw [hXadm]
      exact pairwise_id_map_if cur.admin_id _ db.admins (fun a => rfl) hWa
    have hadms : (update_org p cur db).2.admins
        = (db.admins.map (fun a => if a._id = cur.admin_id then
            { a with organization := pyNorm rawB } else a)).map
          (fun a =>
            if a._id = cur.admin_id then
              { a with
                email := match p.email with
                  | some e => if e.isEmpty then a.email else e
                  | none => a.email,
                password := match p.password with
                  | some pw => if pw.isEmpty then a.password else hash_password pw
                  | none => a.password }
            else a) := by
      rw [h2, update_org_cred_admins_map p cur _ hWaX, hXadm]
    have hadm' := hadm
    rw [findAdmin] at hadm'
    have hadmid : adm._id = cur.admin_id := by
      have := List.find?_some hadm'
      simpa using this
    have hpred : ((fun a : AdminDoc => a._id == cur.admin_id) ∘
        ((fun a : AdminDoc =>
          if a._id = cur.admin_id then
            { a with
              email := match p.email with
                | some e => if e.isEmpty then a.email else e
                | none => a.email,
              password := match p.password with
                | some pw => if pw.isEmpty then a.password else hash_password pw
                | none => a.password }
          else a) ∘
        (fun a : AdminDoc => if a._id = cur.admin_id then
          { a with organization := pyNorm rawB } else a)))
        = fun a : AdminDoc => a._id == cur.admin_id := by
      funext a
      by_cases h : a._id = cur.admin_id <;> simp [Function.comp, h]
    refine ⟨{ _id := adm._id,
              email := match p.email with
                | some e => if e.isEmpty then adm.email else e
                | none => adm.email,
              password := match p.password with
                | some pw => if pw.isEmpty then adm.password else hash_password pw
                | none => adm.password,
              role := adm.role,
              organization := pyNorm rawB }, ?_, rfl⟩
    rw [findAdmin, hadms, List.map_map, List.find?_map, hpred, hadm']
    simp [Function.comp, hadmid]

/-- Witness for C1: the admin of `acme` renames it to `beta`; afterwards
`get("acme")` is 404, `get("beta")` returns the record with collection
`org_beta`, and the admin's back-reference reads `beta`. -/
theorem C1_rename_consistency_witness :
    (∃ r, (update_org ⟨some (pyOfString " Beta"), none, none⟩
      ⟨0, pyOfString "acme"⟩ dbEx).1 = .ok r) ∧
    get_org (pyOfString "acme") (update_org ⟨some (pyOfString " Beta"), none, none⟩
      ⟨0, pyOfString "acme"⟩ dbEx).2 = .error ⟨404, "Organization not found"⟩ ∧
    (∃ r, get_org (pyOfString "beta") (update_org ⟨some (pyOfString " Beta"), none, none⟩
        ⟨0, pyOfString "acme"⟩ dbEx).2 = .ok r ∧
      r.organization_name = pyOfString "beta" ∧
      r.collection_name = pyOfString "org_" ++ pyOfString "beta") ∧
    (∃ a', findAdmin (update_org ⟨some (pyOfString " Beta"), none, none⟩
        ⟨0, pyOfString "acme"⟩ dbEx).2 0 = some a' ∧
      a'.organization = pyOfString "beta") :=
  C1_rename_consistency ⟨some (pyOfString " Beta"), none, none⟩
    ⟨0, pyOfString "acme"⟩ dbEx (pyOfString " Beta") (pyOfString "acme")
    (pyOfString "beta")
    ⟨1, pyOfString "acme", pyOfString "org_acme", 0, 5⟩
    ⟨0, pyOfString "a@x.com", hash_password (pyOfString "pw1"),
      pyOfString "admin", pyOfString "acme"⟩
    (by decide) (by decide) (by decide) rfl (by decide) (by decide)
    (by decide) rfl (by decide) (by decide) (by decide)
